import Mathlib

/-!
Shallow embedding of the Roborock washer refresh coordinator
(custom_components/roborock_washer): zeo_protocol.py, coordinator.py and
entity.py, restricted to the pure data/control content of those files.
Python dicts are modelled as insertion-ordered association lists, datetimes
as seconds (Nat), and a Python computation that may raise an uncaught
exception as a `PyResult`.
-/

/-- The members of the external `RoborockZeoProtocol` enum that this
integration references (coordinator.py lines 78-117).  The enum has further
members; none of them is mentioned by the code under study. -/
inductive Proto where
  | state
  | washing_left
  | countdown
  | error
  | times_after_clean
  | detergent_empty
  | start
  | pause
  | shutdown
  | mode
  | program
  | temp
  | rinse_times
  | spin_level
  | drying_mode
  | detergent_type
  | sound_set
deriving DecidableEq, Repr

/-- The Python enum member name (`protocol.name`). -/
def Proto.pyName : Proto → String
  | .state => "STATE"
  | .washing_left => "WASHING_LEFT"
  | .countdown => "COUNTDOWN"
  | .error => "ERROR"
  | .times_after_clean => "TIMES_AFTER_CLEAN"
  | .detergent_empty => "DETERGENT_EMPTY"
  | .start => "START"
  | .pause => "PAUSE"
  | .shutdown => "SHUTDOWN"
  | .mode => "MODE"
  | .program => "PROGRAM"
  | .temp => "TEMP"
  | .rinse_times => "RINSE_TIMES"
  | .spin_level => "SPIN_LEVEL"
  | .drying_mode => "DRYING_MODE"
  | .detergent_type => "DETERGENT_TYPE"
  | .sound_set => "SOUND_SET"

/-- Python `s.lower()` (ASCII; every string in this code is ASCII),
written over the character list so it evaluates in the kernel. -/
def strToLower (s : String) : String := String.mk (s.data.map Char.toLower)

/-- Python `s.upper()` (ASCII), written over the character list. -/
def strToUpper (s : String) : String := String.mk (s.data.map Char.toUpper)

/-- `protocol.name.lower()`, the string used as cache key by the coordinator. -/
def Proto.nameLower (p : Proto) : String := strToLower p.pyName

/-- The Python values that flow through this code: scalars, plus the
dict/list shapes the transport may return (coordinator.py lines 174-179). -/
inductive Val where
  | none
  | bool (b : Bool)
  | int (n : Int)
  | str (s : String)
  | dict (entries : List (Proto × Val))
  | list (items : List Val)

/-- Python identity test `x is None` (coordinator.py lines 192, 349). -/
def Val.isNone : Val → Bool
  | Val.none => true
  | _ => false

/-- Result of a Python call as seen by its caller: a value, or an uncaught
exception propagating out. -/
inductive PyResult (α : Type) where
  | ok (a : α)
  | exn

/-- Outcome of one call on the underlying device transport (`device.zeo`):
it returns a value or raises. -/
inductive TResult where
  | ok (v : Val)
  | raise

/-- The external `device.zeo` collaborator: an opaque query/set interface
that may raise on any call. -/
structure DeviceZeo where
  queryValues : List Proto → TResult
  setValue : Proto → Val → TResult

/-- A device; `zeo = none` models `not hasattr(device, 'zeo') or device.zeo
is None` (zeo_protocol.py lines 46, 75). -/
structure Device where
  zeo : Option DeviceZeo

/-- `ZeoProtocol.query_values` (zeo_protocol.py lines 32-58): returns `{}`
when the device lacks Zeo support, and catches every exception from the
device call, returning `{}` in that case too. -/
def zeoQueryValues (device : Device) (protocols : List Proto) : PyResult Val :=
  match device.zeo with
  | Option.none => PyResult.ok (Val.dict [])
  | Option.some z =>
    match z.queryValues protocols with
    | TResult.ok v => PyResult.ok v
    | TResult.raise => PyResult.ok (Val.dict [])

/-- `ZeoProtocol.set_value` (zeo_protocol.py lines 60-85), instrumented with
the argument pair that was forwarded to `device.zeo.set_value` (if any), so
theorems can speak about what reached the transport. -/
def zeoSetValueTraced (device : Device) (protocol : Proto) (value : Val) :
    PyResult Val × Option (Proto × Val) :=
  match device.zeo with
  | Option.none => (PyResult.ok (Val.dict []), Option.none)
  | Option.some z =>
    (match z.setValue protocol value with
     | TResult.ok v => PyResult.ok v
     | TResult.raise => PyResult.ok (Val.dict []),
     Option.some (protocol, value))

/-- `ZeoProtocol.set_value`, return value only. -/
def zeoSetValue (device : Device) (protocol : Proto) (value : Val) : PyResult Val :=
  (zeoSetValueTraced device protocol value).1

/-- Python dict lookup `d.get(k)` on an insertion-ordered assoc list. -/
def dictGet {α : Type} (d : List (String × α)) (k : String) : Option α :=
  (d.find? (fun p => p.1 == k)).map Prod.snd

/-- Python dict assignment `d[k] = v`: overwrite in place if the key exists
(preserving its position), else append. -/
def dictSet {α : Type} (d : List (String × α)) (k : String) (v : α) :
    List (String × α) :=
  if d.any (fun p => p.1 == k) then
    d.map (fun p => if p.1 == k then (k, v) else p)
  else
    d ++ [(k, v)]

/-- Python `d.update(e)`: assign every entry of `e` into `d`, in order. -/
def dictUpdate {α : Type} (d e : List (String × α)) : List (String × α) :=
  e.foldl (fun acc p => dictSet acc p.1 p.2) d

/-- Python `int(s)` for a string: strip whitespace, optional single sign,
then decimal digits; anything else raises `ValueError` (`Option.none`).
(Underscore digit grouping is not modelled; no input here uses it.) -/
def pyIntOfString (s : String) : Option Int :=
  let t := ((s.data.dropWhile Char.isWhitespace).reverse.dropWhile
    Char.isWhitespace).reverse
  let core := match t with
    | c :: rest => if c = '-' || c = '+' then rest else t
    | [] => t
  let sign : Int := match t with
    | c :: _ => if c = '-' then -1 else 1
    | [] => 1
  if core.length > 0 && core.all Char.isDigit then
    Option.some (sign * Int.ofNat
      (core.foldl (fun n c => n * 10 + (c.toNat - 48)) 0))
  else
    Option.none

/-- Python truthiness `bool(x)` for the value shapes in play. -/
def pyBool : Val → Bool
  | Val.none => false
  | Val.bool b => b
  | Val.int n => n != 0
  | Val.str s => s.length != 0
  | Val.dict entries => entries.length != 0
  | Val.list items => items.length != 0

/-- The per-result boolean conversion
`bool(int(r)) if isinstance(r, str) else bool(r)`
(coordinator.py lines 192-193 and 349-350); `int()` may raise. -/
def coerceBool (v : Val) : PyResult Val :=
  match v with
  | Val.str s =>
    match pyIntOfString s with
    | Option.some n => PyResult.ok (Val.bool (n != 0))
    | Option.none => PyResult.exn
  | v => PyResult.ok (Val.bool (pyBool v))

/-- The result-shape normalization repeated at coordinator.py lines 174-179,
220-225, 259-264 and 335-340: a dict containing the queried protocol is
unwrapped at that key, a one-element list is unwrapped, anything else is
kept as-is. -/
def processResult (protocol : Proto) (result : Val) : Val :=
  match result with
  | Val.dict entries =>
    match entries.find? (fun p => p.1 == protocol) with
    | Option.some p => p.2
    | Option.none => Val.dict entries
  | Val.list [v] => v
  | v => v

/-- `self.frequent_protocols` (coordinator.py lines 78-83). -/
def frequent_protocols : List Proto :=
  [Proto.state, Proto.washing_left, Proto.countdown]

/-- `self.infrequent_protocols` (coordinator.py lines 86-92). -/
def infrequent_protocols : List Proto :=
  [Proto.error, Proto.times_after_clean, Proto.detergent_empty]

/-- `self.manual_protocols` (coordinator.py lines 95-114). -/
def manual_protocols : List Proto :=
  [Proto.start, Proto.pause, Proto.shutdown, Proto.mode, Proto.program,
   Proto.temp, Proto.rinse_times, Proto.spin_level, Proto.drying_mode,
   Proto.detergent_type, Proto.sound_set]

/-- `self.all_protocols` (coordinator.py line 117). -/
def all_protocols : List Proto :=
  frequent_protocols ++ infrequent_protocols ++ manual_protocols

/-- The literal skip list `[START, PAUSE, SHUTDOWN]` of coordinator.py
line 162. -/
def write_only_protocols : List Proto := [Proto.start, Proto.pause, Proto.shutdown]

/-- `boolean_protocols` of the initial-load branch (coordinator.py
lines 183-190): only SOUND_SET survives the commented-out members. -/
def initial_boolean_protocols : List Proto := [Proto.sound_set]

/-- `UPDATE_INTERVAL_FREQUENT = timedelta(minutes=1)` (const.py), in seconds. -/
def UPDATE_INTERVAL_FREQUENT : Nat := 60

/-- `UPDATE_INTERVAL_INFREQUENT = timedelta(hours=6)` (const.py), in seconds. -/
def UPDATE_INTERVAL_INFREQUENT : Nat := 21600

/-- The mutable coordinator fields that the operations under study read and
write (coordinator.py lines 120-125). -/
structure Coord where
  stateCache : List (String × Val)
  lastUpdateTimes : List (String × Nat)
  initialLoadComplete : Bool
  initialLoadStarted : Bool

/-- Accumulated state while one `_async_update_data` tick runs: the
coordinator fields, the local `all_results` dict, and an instrumentation
log of every `zeo_api.query_values` invocation (its argument list). -/
structure TickAcc where
  coord : Coord
  allResults : List (String × Val)
  queries : List (List Proto)

/-- The per-protocol block repeated in the initial-load, frequent and
infrequent branches (coordinator.py lines 168-200, 214-241, 253-272):
query one protocol, normalize the result shape, apply the boolean
conversion for `boolProtos`, then record the value in `all_results` and
the timestamp in `_last_update_times`.  The surrounding
`try/except: continue` drops the key on any exception (in particular a
`ValueError` from the boolean conversion's `int()`). -/
def normalizeAndConvert (boolProtos : List Proto) (protocol : Proto)
    (result : Val) : PyResult Val :=
  let r := processResult protocol result
  if boolProtos.contains protocol && !r.isNone then coerceBool r
  else PyResult.ok r

/-- See `normalizeAndConvert`; this wraps it in the query and the
per-key bookkeeping of the same repeated block. -/
def queryAndProcess (device : Device) (boolProtos : List Proto)
    (currentTime : Nat) (acc : TickAcc) (protocol : Proto) : TickAcc :=
  let acc2 := { acc with queries := acc.queries ++ [[protocol]] }
  match zeoQueryValues device [protocol] with
  | PyResult.exn => acc2
  | PyResult.ok result =>
    match normalizeAndConvert boolProtos protocol result with
    | PyResult.exn => acc2
    | PyResult.ok r2 =>
      { acc2 with
        allResults := dictSet acc2.allResults protocol.nameLower r2,
        coord := { acc2.coord with
          lastUpdateTimes := dictSet acc2.coord.lastUpdateTimes protocol.nameLower currentTime } }

/-- One iteration of the initial-load loop (coordinator.py lines 161-200):
skip START/PAUSE/SHUTDOWN, otherwise query and process with the
initial-load boolean conversion list. -/
def initialLoadStep (device : Device) (currentTime : Nat)
    (acc : TickAcc) (protocol : Proto) : TickAcc :=
  if write_only_protocols.contains protocol then acc
  else queryAndProcess device initial_boolean_protocols currentTime acc protocol

/-- One iteration of a steady-state tier loop (coordinator.py
lines 209-244 and 248-275): query only if the protocol has no recorded
last-update time or `current_time - last_update >= interval`.  The
`boolean_protocols` list is empty in both steady-state branches. -/
def steadyStep (device : Device) (interval : Nat) (currentTime : Nat)
    (acc : TickAcc) (protocol : Proto) : TickAcc :=
  match dictGet acc.coord.lastUpdateTimes protocol.nameLower with
  | Option.none => queryAndProcess device [] currentTime acc protocol
  | Option.some lastUpdate =>
    if interval ≤ currentTime - lastUpdate then
      queryAndProcess device [] currentTime acc protocol
    else acc

/-- What one `_async_update_data` call produces: the new coordinator
fields, the method's return value, plus (for the theorems) the final
`all_results` dict and the query log. -/
structure TickResult where
  coord : Coord
  ret : List (String × Val)
  allResults : List (String × Val)
  queries : List (List Proto)

/-- The `except Exception` fallback of `_async_update_data`
(coordinator.py lines 290-293): on a tick-wide exception the previous
`_state_cache` is returned.  The modelled tick body never raises — the
transport wrapper is total and every per-key block has its own handler —
so in `asyncUpdateDataT` this is only ever applied to `PyResult.ok`. -/
def tickReturn (c : Coord) (body : PyResult (List (String × Val))) :
    List (String × Val) :=
  match body with
  | PyResult.ok r => r
  | PyResult.exn => c.stateCache

/-- The cache-update epilogue of `_async_update_data` (coordinator.py
lines 280-289): merge `all_results` into `_state_cache` only when it is
non-empty, and return `all_results or self._state_cache`. -/
def finalizeTick (c : Coord) (allResults : List (String × Val))
    (queries : List (List Proto)) : TickResult :=
  let c2 :=
    if allResults.isEmpty then c
    else { c with stateCache := dictUpdate c.stateCache allResults }
  { coord := c2,
    ret := tickReturn c (PyResult.ok (if allResults.isEmpty then c.stateCache else allResults)),
    allResults := allResults,
    queries := queries }

/-- `RoborockWasherDataUpdateCoordinator._async_update_data`
(coordinator.py lines 142-293).  `currentTime` is `datetime.now()` in
seconds. -/
def asyncUpdateDataT (device : Device) (currentTime : Nat) (c : Coord) :
    TickResult :=
  if c.initialLoadComplete = false then
    let c1 := { c with initialLoadStarted := true }
    let acc := all_protocols.foldl (initialLoadStep device currentTime)
      { coord := c1, allResults := [], queries := [] }
    let c2 := { acc.coord with initialLoadComplete := true }
    finalizeTick c2 acc.allResults acc.queries
  else
    let acc1 := frequent_protocols.foldl
      (steadyStep device UPDATE_INTERVAL_FREQUENT currentTime)
      { coord := c, allResults := [], queries := [] }
    let acc2 := infrequent_protocols.foldl
      (steadyStep device UPDATE_INTERVAL_INFREQUENT currentTime) acc1
    finalizeTick acc2.coord acc2.allResults acc2.queries

/-- `RoborockWasherDataUpdateCoordinator.get_cached_value`
(coordinator.py lines 295-301): look the key up after lowercasing it. -/
def get_cached_value (c : Coord) (protocol : String) : Option Val :=
  dictGet c.stateCache (strToLower protocol)

/-- `getattr(RoborockZeoProtocol, name, None)`: resolve an exact enum
member name.  (Members of the real enum outside `Proto` are never named by
the code under study.) -/
def resolveProtocol (name : String) : Option Proto :=
  [Proto.state, Proto.washing_left, Proto.countdown, Proto.error,
   Proto.times_after_clean, Proto.detergent_empty, Proto.start, Proto.pause,
   Proto.shutdown, Proto.mode, Proto.program, Proto.temp, Proto.rinse_times,
   Proto.spin_level, Proto.drying_mode, Proto.detergent_type,
   Proto.sound_set].find? (fun p => p.pyName == name)

/-- Observable effects of one command-path call. -/
structure CmdResult where
  forwardedWrite : Option (Proto × Val)
  refreshRequested : Bool
  outcome : PyResult Unit

/-- `RoborockWasherDataUpdateCoordinator.async_send_command`
(coordinator.py lines 303-316).  `refreshOutcome` stands for the external
`self.async_request_refresh()` call; an exception anywhere in the body is
logged and re-raised. -/
def async_send_command (device : Device) (refreshOutcome : PyResult Unit)
    (protocol : String) (value : Val) : CmdResult :=
  match resolveProtocol protocol with
  | Option.none => { forwardedWrite := Option.none, refreshRequested := false,
                     outcome := PyResult.exn }
  | Option.some p =>
    let t := zeoSetValueTraced device p value
    { forwardedWrite := t.2,
      refreshRequested := match t.1 with
        | PyResult.ok _ => true
        | PyResult.exn => false,
      outcome := match t.1, refreshOutcome with
        | PyResult.ok _, PyResult.ok _ => PyResult.ok ()
        | _, _ => PyResult.exn }

/-- `integer_protocols` of `RoborockWasherApiEntity.async_set_value`
(entity.py line 128). -/
def integer_protocols : List String := ["sound_set", "start", "pause", "shutdown"]

/-- `RoborockWasherApiEntity.async_set_value` (entity.py lines 105-153):
resolve the entity's protocol attribute, coerce the value for the
integer-coerced keys (bool to 1/0, string via `int()` — a `ValueError`
is re-raised, before any transport call), write through the Zeo wrapper,
then request a coordinator refresh; any exception is logged and
re-raised. -/
def entitySetValue (device : Device) (refreshOutcome : PyResult Unit)
    (protocolAttr : String) (value : Val) : CmdResult :=
  match resolveProtocol protocolAttr with
  | Option.none => { forwardedWrite := Option.none, refreshRequested := false,
                     outcome := PyResult.exn }
  | Option.some p =>
    let protocolKey := strToLower protocolAttr
    let coerced : PyResult Val :=
      if integer_protocols.contains protocolKey then
        match value with
        | Val.bool b => PyResult.ok (Val.int (if b then 1 else 0))
        | Val.str s =>
          match pyIntOfString s with
          | Option.some n => PyResult.ok (Val.int n)
          | Option.none => PyResult.exn
        | v => PyResult.ok v
      else PyResult.ok value
    match coerced with
    | PyResult.exn => { forwardedWrite := Option.none, refreshRequested := false,
                        outcome := PyResult.exn }
    | PyResult.ok v =>
      let t := zeoSetValueTraced device p v
      { forwardedWrite := t.2,
        refreshRequested := match t.1 with
          | PyResult.ok _ => true
          | PyResult.exn => false,
        outcome := match t.1, refreshOutcome with
          | PyResult.ok _, PyResult.ok _ => PyResult.ok ()
          | _, _ => PyResult.exn }

/-- `boolean_protocols` of `async_query_protocol` (coordinator.py
lines 345-347), compared against the caller's string. -/
def query_boolean_protocols : List String := ["sound_set"]

/-- The normalization and conversion block of `async_query_protocol`
(coordinator.py lines 334-350); unlike the tick branches, the conversion
list is checked against the caller's string. -/
def normalizeAndConvertByName (protocolName : String) (p : Proto)
    (result : Val) : PyResult Val :=
  let r := processResult p result
  if query_boolean_protocols.contains protocolName && !r.isNone then coerceBool r
  else PyResult.ok r

/-- `RoborockWasherDataUpdateCoordinator.async_query_protocol`
(coordinator.py lines 320-364): resolve `protocol_name.upper()`, query,
normalize, boolean-coerce when `protocol_name` is literally in
`boolean_protocols`, then store the value in `_state_cache` under the
caller-supplied `protocol_name` (verbatim, not lowercased) and record the
timestamp; any exception is logged and re-raised.  (The `self.data`
assignment and listener notification are consumer-side effects outside the
modelled state.) -/
def async_query_protocol (device : Device) (now : Nat) (c : Coord)
    (protocolName : String) : PyResult (Coord × Val) :=
  match resolveProtocol (strToUpper protocolName) with
  | Option.none => PyResult.exn
  | Option.some p =>
    match zeoQueryValues device [p] with
    | PyResult.exn => PyResult.exn
    | PyResult.ok result =>
      match normalizeAndConvertByName protocolName p result with
      | PyResult.exn => PyResult.exn
      | PyResult.ok r2 =>
        PyResult.ok
          ({ c with
             stateCache := dictSet c.stateCache protocolName r2,
             lastUpdateTimes := dictSet c.lastUpdateTimes protocolName now }, r2)

/-- A transport on which every query and every write raises. -/
def failingZeo : DeviceZeo :=
  { queryValues := fun _ => TResult.raise, setValue := fun _ _ => TResult.raise }

/-- A device whose underlying transport always raises. -/
def failingDevice : Device := { zeo := Option.some failingZeo }

/-- A transport on which every query returns `v` and every write succeeds. -/
def constZeo (v : Val) : DeviceZeo :=
  { queryValues := fun _ => TResult.ok v,
    setValue := fun _ _ => TResult.ok (Val.dict []) }

/-- A device wrapping `constZeo v`. -/
def constDevice (v : Val) : Device := { zeo := Option.some (constZeo v) }

/-- A freshly constructed coordinator (coordinator.py lines 120-125). -/
def freshCoord : Coord :=
  { stateCache := [], lastUpdateTimes := [],
    initialLoadComplete := false, initialLoadStarted := false }

/-- A coordinator past its initial load whose cache holds `"5"` for the
`state` key, refreshed at time 0. -/
def staleCoord : Coord :=
  { stateCache := [("state", Val.str "5")], lastUpdateTimes := [("state", 0)],
    initialLoadComplete := true, initialLoadStarted := true }

/-- The due-for-refresh test of a steady-state tier pass, read off
coordinator.py lines 211-213 and 250-252: a protocol is due when it has no
recorded last-update time or `current_time - last_update >= interval`. -/
def dueB (interval t : Nat) (times : List (String × Nat)) (p : Proto) : Bool :=
  match dictGet times p.nameLower with
  | Option.none => true
  | Option.some lastUpdate => decide (interval ≤ t - lastUpdate)

/-- A coordinator past its initial load in which every scheduler-polled
protocol was refreshed at time 0, so that nothing is due at time 30. -/
def idleCoord : Coord :=
  { stateCache := [("state", Val.str "5")],
    lastUpdateTimes := [("state", 0), ("washing_left", 0), ("countdown", 0),
      ("error", 0), ("times_after_clean", 0), ("detergent_empty", 0)],
    initialLoadComplete := true, initialLoadStarted := true }

/-- C1.  The claim says a failed transport query leaves the cache entry
stale-but-present with its previous timestamp.  In the code the wrapper
`ZeoProtocol.query_values` turns the transport exception into `{}`, the
tick's shape normalization passes that `{}` through, and the tick stores it:
after one tick at time 60 against an always-raising transport, the cached
value for `state` is the empty dict (not the prior `"5"`) and its
last-update time has advanced to 60.  The coordinator's own per-key
`except ... continue` handlers (coordinator.py lines 198-200, 239-241,
270-272) exist to preserve the stale value but can never fire, because the
wrapper is total. -/
theorem query_failure_overwrites_cache_eval :
    get_cached_value staleCoord "state" = Option.some (Val.str "5")
    ∧ get_cached_value (asyncUpdateDataT failingDevice 60 staleCoord).coord "state"
        = Option.some (Val.dict [])
    ∧ dictGet (asyncUpdateDataT failingDevice 60 staleCoord).coord.lastUpdateTimes "state"
        = Option.some 60 := by
  exact ⟨rfl, rfl, rfl⟩

/-- C6.  The claim says a transport write failure propagates out of
`async_send_command` as a command failure.  In the code
`ZeoProtocol.set_value` catches the exception and returns `{}`, so the
command path never sees the failure: with an always-raising transport the
write is forwarded to the device, the device call raises, and
`async_send_command` still finishes successfully (`outcome = ok`). -/
theorem write_failure_swallowed_eval :
    (async_send_command failingDevice (PyResult.ok ()) "START" (Val.int 1)).forwardedWrite
      = Option.some (Proto.start, Val.int 1)
    ∧ (async_send_command failingDevice (PyResult.ok ()) "START" (Val.int 1)).outcome
      = PyResult.ok () := by
  exact ⟨rfl, rfl⟩

/-- C9 counterexample.  `async_query_protocol` resolves
`protocol_name.upper()` but stores under the caller-supplied name verbatim
(coordinator.py line 353): called with `"STATE"` it creates the
non-lowercase cache key `"STATE"`, which `get_cached_value` (which
lowercases its argument) can then not see under any casing. -/
theorem query_protocol_stores_verbatim_cex :
    async_query_protocol (constDevice (Val.str "run")) 5 staleCoord "STATE"
      = PyResult.ok
          ({ stateCache := [("state", Val.str "5"), ("STATE", Val.str "run")],
             lastUpdateTimes := [("state", 0), ("STATE", 5)],
             initialLoadComplete := true, initialLoadStarted := true },
           Val.str "run")
    ∧ get_cached_value
        { stateCache := [("state", Val.str "5"), ("STATE", Val.str "run")],
          lastUpdateTimes := [("state", 0), ("STATE", 5)],
          initialLoadComplete := true, initialLoadStarted := true } "STATE"
      = Option.some (Val.str "5") := by
  exact ⟨rfl, rfl⟩

/-- C5 counterexample.  During the initial load the per-key results go into
the local `all_results` dict; `_state_cache` is only written after the
whole pass (coordinator.py line 284).  Concretely: after the first key
(`state`) has been queried successfully, its value sits in `all_results`
but the cache — what any later key in the same pass would observe — still
lacks it. -/
theorem initial_load_merge_not_immediate_cex :
    dictGet ((all_protocols.take 1).foldl
        (initialLoadStep (constDevice (Val.str "3")) 0)
        { coord := { freshCoord with initialLoadStarted := true },
          allResults := [], queries := [] }).allResults "state"
      = Option.some (Val.str "3")
    ∧ dictGet ((all_protocols.take 1).foldl
        (initialLoadStep (constDevice (Val.str "3")) 0)
        { coord := { freshCoord with initialLoadStarted := true },
          allResults := [], queries := [] }).coord.stateCache "state"
      = Option.none := by
  exact ⟨rfl, rfl⟩

/-- C7 counterexample.  `async_send_command` runs
`await self.async_request_refresh()` inside its `try`, and the handler
logs and then re-raises (coordinator.py lines 314-316): when the post-write
refresh raises, the whole command fails to its caller instead of
succeeding. -/
theorem post_write_refresh_failure_escalates_cex :
    (async_send_command (constDevice Val.none) PyResult.exn "START" (Val.int 1)).forwardedWrite
      = Option.some (Proto.start, Val.int 1)
    ∧ (async_send_command (constDevice Val.none) PyResult.exn "START" (Val.int 1)).outcome
      = PyResult.exn := by
  exact ⟨rfl, rfl⟩

/-- C10.  Both `ZeoProtocol` wrappers are total: for every device and input
they return a value (never propagate an exception), and they return the
empty dict both when the device lacks Zeo support and when the underlying
device call raises. -/
theorem zeo_wrapper_total :
    (∀ device protocols, ∃ v, zeoQueryValues device protocols = PyResult.ok v)
    ∧ (∀ device p x, ∃ v, zeoSetValue device p x = PyResult.ok v)
    ∧ (∀ protocols, zeoQueryValues { zeo := Option.none } protocols
        = PyResult.ok (Val.dict []))
    ∧ (∀ p x, zeoSetValue { zeo := Option.none } p x = PyResult.ok (Val.dict []))
    ∧ (∀ z protocols, z.queryValues protocols = TResult.raise →
        zeoQueryValues { zeo := Option.some z } protocols = PyResult.ok (Val.dict []))
    ∧ (∀ z p x, z.setValue p x = TResult.raise →
        zeoSetValue { zeo := Option.some z } p x = PyResult.ok (Val.dict [])) := by
  refine ⟨?_, ?_, fun _ => rfl, fun _ _ => rfl, ?_, ?_⟩
  · intro device protocols
    cases hz : device.zeo with
    | none => exact ⟨Val.dict [], by simp [zeoQueryValues, hz]⟩
    | some z =>
      cases hq : z.queryValues protocols with
      | ok v => exact ⟨v, by simp [zeoQueryValues, hz, hq]⟩
      | raise => exact ⟨Val.dict [], by simp [zeoQueryValues, hz, hq]⟩
  · intro device p x
    cases hz : device.zeo with
    | none => exact ⟨Val.dict [], by simp [zeoSetValue, zeoSetValueTraced, hz]⟩
    | some z =>
      cases hq : z.setValue p x with
      | ok v => exact ⟨v, by simp [zeoSetValue, zeoSetValueTraced, hz, hq]⟩
      | raise => exact ⟨Val.dict [], by simp [zeoSetValue, zeoSetValueTraced, hz, hq]⟩
  · intro z protocols h
    simp [zeoQueryValues, h]
  · intro z p x h
    simp [zeoSetValue, zeoSetValueTraced, h]

/-- Witness for the hypotheses of `zeo_wrapper_total`, at the
always-raising transport. -/
theorem zeo_wrapper_total_witness :
    zeoQueryValues { zeo := Option.some failingZeo } [Proto.state]
      = PyResult.ok (Val.dict [])
    ∧ zeoSetValue { zeo := Option.some failingZeo } Proto.start (Val.int 1)
      = PyResult.ok (Val.dict []) := by
  exact ⟨zeo_wrapper_total.2.2.2.2.1 failingZeo [Proto.state] rfl,
         zeo_wrapper_total.2.2.2.2.2 failingZeo Proto.start (Val.int 1) rfl⟩

/-! Lemmas about the Python-dict model. -/

theorem find?_map_replace {α : Type} (d : List (String × α)) (k : String) (v : α) :
    (d.map (fun p => if p.1 == k then (k, v) else p)).find? (fun p => p.1 == k)
      = (d.find? (fun p => p.1 == k)).map (fun _ => (k, v)) := by
  induction d with
  | nil => rfl
  | cons q t ih =>
    by_cases hq : q.1 = k
    · simp only [List.map_cons, List.find?_cons, hq, beq_self_eq_true, if_true]
      simp [beq_self_eq_true]
    · have hqb : (q.1 == k) = false := by simpa using hq
      simp only [List.map_cons, List.find?_cons, hqb, Bool.false_eq_true, if_false]
      exact ih

theorem find?_map_replace_ne {α : Type} (d : List (String × α)) (k k2 : String) (v : α)
    (h : (k == k2) = false) :
    (d.map (fun p => if p.1 == k then (k, v) else p)).find? (fun p => p.1 == k2)
      = d.find? (fun p => p.1 == k2) := by
  induction d with
  | nil => rfl
  | cons q t ih =>
    by_cases hq : q.1 = k
    · have hq2 : (q.1 == k2) = false := by rw [hq]; exact h
      simp only [List.map_cons, List.find?_cons, hq, beq_self_eq_true, if_true, h, hq2,
        Bool.false_eq_true, if_false]
      exact ih
    · have hqb : (q.1 == k) = false := by simpa using hq
      simp only [List.map_cons, List.find?_cons, hqb, Bool.false_eq_true, if_false]
      by_cases hq2 : q.1 = k2
      · simp [hq2]
      · have hq2b : (q.1 == k2) = false := by simpa using hq2
        simp only [hq2b, Bool.false_eq_true, if_false]
        exact ih

theorem dictGet_dictSet_self {α : Type} (d : List (String × α)) (k : String) (v : α) :
    dictGet (dictSet d k v) k = Option.some v := by
  unfold dictGet dictSet
  by_cases ha : d.any (fun p => p.1 == k) = true
  · rw [if_pos ha, find?_map_replace]
    have hex : ∃ x ∈ d, (x.1 == k) = true := by simpa using ha
    rcases hex with ⟨x, hx, hxk⟩
    have hs : (d.find? (fun p => p.1 == k)).isSome := List.find?_isSome.2 ⟨x, hx, hxk⟩
    cases hf : d.find? (fun p => p.1 == k) with
    | none => rw [hf] at hs; simp at hs
    | some w => simp [hf]
  · rw [if_neg ha]
    rw [List.find?_append]
    have hnone : d.find? (fun p => p.1 == k) = Option.none := by
      rw [List.find?_eq_none]
      intro x hx hxk
      exact ha (List.any_eq_true.2 ⟨x, hx, hxk⟩)
    simp [hnone, List.find?]

theorem dictGet_dictSet_ne {α : Type} (d : List (String × α)) (k k2 : String) (v : α)
    (h : k2 ≠ k) : dictGet (dictSet d k v) k2 = dictGet d k2 := by
  have hbeq : (k == k2) = false := by
    simp only [beq_eq_false_iff_ne, ne_eq]
    intro hh
    exact h hh.symm
  unfold dictGet dictSet
  by_cases ha : d.any (fun p => p.1 == k) = true
  · rw [if_pos ha, find?_map_replace_ne d k k2 v hbeq]
  · rw [if_neg ha]
    rw [List.find?_append]
    cases hf : d.find? (fun p => p.1 == k2) with
    | none => simp [hf, List.find?, hbeq]
    | some w => simp [hf]

theorem dictUpdate_nil {α : Type} (d : List (String × α)) : dictUpdate d [] = d := rfl

theorem dictSet_ne_nil {α : Type} (d : List (String × α)) (k : String) (v : α) :
    dictSet d k v ≠ [] := by
  unfold dictSet
  by_cases ha : d.any (fun p => p.1 == k) = true
  · rw [if_pos ha]
    intro hc
    rw [List.map_eq_nil_iff] at hc
    subst hc
    simp at ha
  · rw [if_neg ha]
    simp

theorem mem_keys_dictSet {α : Type} (d : List (String × α)) (k0 k : String) (v : α)
    (h : k ∈ (dictSet d k0 v).map Prod.fst) :
    k = k0 ∨ k ∈ d.map Prod.fst := by
  unfold dictSet at h
  by_cases ha : d.any (fun p => p.1 == k0) = true
  · rw [if_pos ha, List.map_map] at h
    rcases List.mem_map.1 h with ⟨q, hq, hqe⟩
    by_cases hqk : q.1 = k0
    · left
      simp only [Function.comp, hqk, beq_self_eq_true, if_true] at hqe
      exact hqe.symm
    · right
      have hqb : (q.1 == k0) = false := by simpa using hqk
      refine List.mem_map.2 ⟨q, hq, ?_⟩
      simpa [Function.comp, hqb] using hqe
  · rw [if_neg ha, List.map_append] at h
    rcases List.mem_append.1 h with h1 | h2
    · right; exact h1
    · left; simpa using h2

theorem mem_keys_dictUpdate {α : Type} (e d : List (String × α)) (k : String)
    (h : k ∈ (dictUpdate d e).map Prod.fst) :
    k ∈ d.map Prod.fst ∨ k ∈ e.map Prod.fst := by
  induction e generalizing d with
  | nil => left; exact h
  | cons x e ih =>
    have h2 := ih (dictSet d x.1 x.2) h
    rcases h2 with h2 | h2
    · rcases mem_keys_dictSet d x.1 k x.2 h2 with h3 | h3
      · right; simp [h3]
      · left; exact h3
    · right; simp [h2]

/-! Facts about the per-protocol tick step. -/

theorem queryAndProcess_queries (device : Device) (bp : List Proto) (t : Nat)
    (acc : TickAcc) (p : Proto) :
    (queryAndProcess device bp t acc p).queries = acc.queries ++ [[p]] := by
  cases hz : zeoQueryValues device [p] with
  | exn => simp [queryAndProcess, hz]
  | ok result =>
    cases hc : normalizeAndConvert bp p result with
    | exn => simp [queryAndProcess, hz, hc]
    | ok r2 => simp [queryAndProcess, hz, hc]

theorem queryAndProcess_stateCache (device : Device) (bp : List Proto) (t : Nat)
    (acc : TickAcc) (p : Proto) :
    (queryAndProcess device bp t acc p).coord.stateCache = acc.coord.stateCache := by
  cases hz : zeoQueryValues device [p] with
  | exn => simp [queryAndProcess, hz]
  | ok result =>
    cases hc : normalizeAndConvert bp p result with
    | exn => simp [queryAndProcess, hz, hc]
    | ok r2 => simp [queryAndProcess, hz, hc]

theorem queryAndProcess_flags (device : Device) (bp : List Proto) (t : Nat)
    (acc : TickAcc) (p : Proto) :
    (queryAndProcess device bp t acc p).coord.initialLoadComplete
        = acc.coord.initialLoadComplete
    ∧ (queryAndProcess device bp t acc p).coord.initialLoadStarted
        = acc.coord.initialLoadStarted := by
  cases hz : zeoQueryValues device [p] with
  | exn => simp [queryAndProcess, hz]
  | ok result =>
    cases hc : normalizeAndConvert bp p result with
    | exn => simp [queryAndProcess, hz, hc]
    | ok r2 => simp [queryAndProcess, hz, hc]

theorem queryAndProcess_times_ne (device : Device) (bp : List Proto) (t : Nat)
    (acc : TickAcc) (p : Proto) (k : String) (h : k ≠ Proto.nameLower p) :
    dictGet (queryAndProcess device bp t acc p).coord.lastUpdateTimes k
      = dictGet acc.coord.lastUpdateTimes k := by
  cases hz : zeoQueryValues device [p] with
  | exn => simp [queryAndProcess, hz]
  | ok result =>
    cases hc : normalizeAndConvert bp p result with
    | exn => simp [queryAndProcess, hz, hc]
    | ok r2 =>
      simp only [queryAndProcess, hz, hc]
      exact dictGet_dictSet_ne _ _ _ _ h

theorem queryAndProcess_cases (device : Device) (bp : List Proto) (t : Nat)
    (acc : TickAcc) (p : Proto) :
    ((queryAndProcess device bp t acc p).allResults = acc.allResults
      ∧ (queryAndProcess device bp t acc p).coord = acc.coord)
    ∨ (∃ r2, (queryAndProcess device bp t acc p).allResults
        = dictSet acc.allResults (Proto.nameLower p) r2) := by
  cases hz : zeoQueryValues device [p] with
  | exn => left; simp [queryAndProcess, hz]
  | ok result =>
    cases hc : normalizeAndConvert bp p result with
    | exn => left; simp [queryAndProcess, hz, hc]
    | ok r2 => right; exact ⟨r2, by simp [queryAndProcess, hz, hc]⟩

theorem queryAndProcess_keys (device : Device) (bp : List Proto) (t : Nat)
    (acc : TickAcc) (p : Proto) (k : String)
    (h : k ∈ (queryAndProcess device bp t acc p).allResults.map Prod.fst) :
    k ∈ acc.allResults.map Prod.fst ∨ k = Proto.nameLower p := by
  rcases queryAndProcess_cases device bp t acc p with ⟨ha, _⟩ | ⟨r2, ha⟩
  · rw [ha] at h; exact Or.inl h
  · rw [ha] at h
    rcases mem_keys_dictSet _ _ _ _ h with h2 | h2
    · exact Or.inr h2
    · exact Or.inl h2

theorem steadyStep_eq (device : Device) (interval t : Nat)
    (acc : TickAcc) (p : Proto) :
    steadyStep device interval t acc p
      = if dueB interval t acc.coord.lastUpdateTimes p
        then queryAndProcess device [] t acc p else acc := by
  unfold steadyStep dueB
  cases hg : dictGet acc.coord.lastUpdateTimes p.nameLower with
  | none => simp
  | some lastUpdate =>
    by_cases hle : interval ≤ t - lastUpdate
    · simp [hle]
    · simp [hle]

theorem initialLoadStep_eq (device : Device) (t : Nat) (acc : TickAcc) (p : Proto) :
    initialLoadStep device t acc p
      = if write_only_protocols.contains p then acc
        else queryAndProcess device initial_boolean_protocols t acc p := rfl

/-! Invariants carried through a fold of tick steps. -/

theorem foldl_preserves {β : Type} (f : TickAcc → β) (step : TickAcc → Proto → TickAcc)
    (hs : ∀ acc p, f (step acc p) = f acc) :
    ∀ (L : List Proto) (acc : TickAcc), f (L.foldl step acc) = f acc := by
  intro L
  induction L with
  | nil => intro acc; rfl
  | cons p L ih =>
    intro acc
    rw [List.foldl_cons, ih, hs]

theorem foldl_times_outside (step : TickAcc → Proto → TickAcc)
    (hs : ∀ acc p k, k ≠ Proto.nameLower p →
      dictGet (step acc p).coord.lastUpdateTimes k = dictGet acc.coord.lastUpdateTimes k) :
    ∀ (L : List Proto) (acc : TickAcc) (k : String), (∀ p ∈ L, k ≠ Proto.nameLower p) →
      dictGet (L.foldl step acc).coord.lastUpdateTimes k
        = dictGet acc.coord.lastUpdateTimes k := by
  intro L
  induction L with
  | nil => intro acc k _; rfl
  | cons p L ih =>
    intro acc k hk
    rw [List.foldl_cons, ih (step acc p) k (fun q hq => hk q (List.mem_cons_of_mem p hq)),
      hs acc p k (hk p (List.mem_cons_self p L))]

theorem foldl_results_nil (step : TickAcc → Proto → TickAcc)
    (hs : ∀ acc p, ((step acc p).allResults = acc.allResults ∧ (step acc p).coord = acc.coord)
      ∨ (step acc p).allResults ≠ []) :
    ∀ (L : List Proto) (acc : TickAcc), (L.foldl step acc).allResults = [] →
      acc.allResults = [] ∧ (L.foldl step acc).coord = acc.coord := by
  intro L
  induction L with
  | nil => intro acc h; exact ⟨h, rfl⟩
  | cons p L ih =>
    intro acc h
    rw [List.foldl_cons] at h ⊢
    obtain ⟨h1, h2⟩ := ih (step acc p) h
    rcases hs acc p with ⟨ha, hcoord⟩ | hne
    · exact ⟨ha ▸ h1, by rw [h2, hcoord]⟩
    · exact absurd h1 hne

theorem foldl_results_keys (step : TickAcc → Proto → TickAcc)
    (hs : ∀ acc p k, k ∈ (step acc p).allResults.map Prod.fst →
      k ∈ acc.allResults.map Prod.fst ∨ k = Proto.nameLower p) :
    ∀ (L : List Proto) (acc : TickAcc) (k : String),
      k ∈ (L.foldl step acc).allResults.map Prod.fst →
      k ∈ acc.allResults.map Prod.fst ∨ ∃ p ∈ L, k = Proto.nameLower p := by
  intro L
  induction L with
  | nil => intro acc k h; exact Or.inl h
  | cons p L ih =>
    intro acc k h
    rw [List.foldl_cons] at h
    rcases ih (step acc p) k h with h2 | ⟨q, hq, hqe⟩
    · rcases hs acc p k h2 with h3 | h3
      · exact Or.inl h3
      · exact Or.inr ⟨p, List.mem_cons_self p L, h3⟩
    · exact Or.inr ⟨q, List.mem_cons_of_mem p hq, hqe⟩

theorem dueB_congr (interval t : Nat) (times1 times2 : List (String × Nat)) (p : Proto)
    (h : dictGet times1 p.nameLower = dictGet times2 p.nameLower) :
    dueB interval t times1 p = dueB interval t times2 p := by
  unfold dueB
  rw [h]

theorem foldl_initial_queries (device : Device) (t : Nat) :
    ∀ (L : List Proto) (acc : TickAcc),
      (L.foldl (initialLoadStep device t) acc).queries
        = acc.queries ++ (L.filter
            (fun p => !(write_only_protocols.contains p))).map (fun p => [p]) := by
  intro L
  induction L with
  | nil => intro acc; simp
  | cons p L ih =>
    intro acc
    rw [List.foldl_cons, ih]
    by_cases hw : write_only_protocols.contains p
    · have hm : p ∈ write_only_protocols := by simpa using hw
      rw [initialLoadStep_eq, if_pos hw, List.filter_cons]
      simp [hw, hm]
    · have hm : p ∉ write_only_protocols := by simpa using hw
      have hb : (write_only_protocols.contains p) = false := by
        simpa using hw
      rw [initialLoadStep_eq, if_neg hw, List.filter_cons]
      simp [hb, hm, queryAndProcess_queries]

theorem foldl_steady_queries (device : Device) (interval t : Nat) :
    ∀ (L : List Proto) (acc : TickAcc), (L.map Proto.nameLower).Nodup →
      (L.foldl (steadyStep device interval t) acc).queries
        = acc.queries ++ (L.filter
            (dueB interval t acc.coord.lastUpdateTimes)).map (fun p => [p]) := by
  intro L
  induction L with
  | nil => intro acc _; simp
  | cons p L ih =>
    intro acc hnd
    rw [List.map_cons, List.nodup_cons] at hnd
    obtain ⟨hp, hnd⟩ := hnd
    rw [List.foldl_cons, ih _ hnd]
    have hagree : ∀ q ∈ L,
        dueB interval t (steadyStep device interval t acc p).coord.lastUpdateTimes q
          = dueB interval t acc.coord.lastUpdateTimes q := by
      intro q hq
      apply dueB_congr
      have hne : Proto.nameLower q ≠ Proto.nameLower p := by
        intro hh
        exact hp (hh ▸ List.mem_map_of_mem Proto.nameLower hq)
      rw [steadyStep_eq]
      by_cases hd : dueB interval t acc.coord.lastUpdateTimes p
      · rw [if_pos hd]
        exact queryAndProcess_times_ne device [] t acc p (Proto.nameLower q) hne
      · rw [if_neg hd]
    rw [List.filter_congr hagree]
    rw [steadyStep_eq]
    by_cases hd : dueB interval t acc.coord.lastUpdateTimes p
    · rw [if_pos hd, List.filter_cons]
      simp [hd, queryAndProcess_queries]
    · rw [if_neg hd, List.filter_cons]
      have hdb : dueB interval t acc.coord.lastUpdateTimes p = false := by
        simpa using hd
      simp [hdb]

/-! Derived step facts and epilogue facts. -/

theorem steadyStep_stateCache (device : Device) (interval t : Nat)
    (acc : TickAcc) (p : Proto) :
    (steadyStep device interval t acc p).coord.stateCache = acc.coord.stateCache := by
  rw [steadyStep_eq]
  by_cases hd : dueB interval t acc.coord.lastUpdateTimes p
  · rw [if_pos hd]; exact queryAndProcess_stateCache device [] t acc p
  · rw [if_neg hd]

theorem steadyStep_complete (device : Device) (interval t : Nat)
    (acc : TickAcc) (p : Proto) :
    (steadyStep device interval t acc p).coord.initialLoadComplete
      = acc.coord.initialLoadComplete := by
  rw [steadyStep_eq]
  by_cases hd : dueB interval t acc.coord.lastUpdateTimes p
  · rw [if_pos hd]; exact (queryAndProcess_flags device [] t acc p).1
  · rw [if_neg hd]

theorem steadyStep_times_ne (device : Device) (interval t : Nat)
    (acc : TickAcc) (p : Proto) (k : String) (h : k ≠ Proto.nameLower p) :
    dictGet (steadyStep device interval t acc p).coord.lastUpdateTimes k
      = dictGet acc.coord.lastUpdateTimes k := by
  rw [steadyStep_eq]
  by_cases hd : dueB interval t acc.coord.lastUpdateTimes p
  · rw [if_pos hd]; exact queryAndProcess_times_ne device [] t acc p k h
  · rw [if_neg hd]

theorem steadyStep_cases (device : Device) (interval t : Nat)
    (acc : TickAcc) (p : Proto) :
    ((steadyStep device interval t acc p).allResults = acc.allResults
      ∧ (steadyStep device interval t acc p).coord = acc.coord)
    ∨ (steadyStep device interval t acc p).allResults ≠ [] := by
  rw [steadyStep_eq]
  by_cases hd : dueB interval t acc.coord.lastUpdateTimes p
  · rw [if_pos hd]
    rcases queryAndProcess_cases device [] t acc p with ⟨h1, h2⟩ | ⟨r2, h1⟩
    · exact Or.inl ⟨h1, h2⟩
    · exact Or.inr (h1 ▸ dictSet_ne_nil _ _ _)
  · rw [if_neg hd]; exact Or.inl ⟨rfl, rfl⟩

theorem steadyStep_keys (device : Device) (interval t : Nat)
    (acc : TickAcc) (p : Proto) (k : String)
    (h : k ∈ (steadyStep device interval t acc p).allResults.map Prod.fst) :
    k ∈ acc.allResults.map Prod.fst ∨ k = Proto.nameLower p := by
  rw [steadyStep_eq] at h
  by_cases hd : dueB interval t acc.coord.lastUpdateTimes p
  · rw [if_pos hd] at h; exact queryAndProcess_keys device [] t acc p k h
  · rw [if_neg hd] at h; exact Or.inl h

theorem initialLoadStep_stateCache (device : Device) (t : Nat)
    (acc : TickAcc) (p : Proto) :
    (initialLoadStep device t acc p).coord.stateCache = acc.coord.stateCache := by
  rw [initialLoadStep_eq]
  by_cases hw : write_only_protocols.contains p
  · rw [if_pos hw]
  · rw [if_neg hw]; exact queryAndProcess_stateCache device _ t acc p

theorem initialLoadStep_cases (device : Device) (t : Nat)
    (acc : TickAcc) (p : Proto) :
    ((initialLoadStep device t acc p).allResults = acc.allResults
      ∧ (initialLoadStep device t acc p).coord = acc.coord)
    ∨ (initialLoadStep device t acc p).allResults ≠ [] := by
  rw [initialLoadStep_eq]
  by_cases hw : write_only_protocols.contains p
  · rw [if_pos hw]; exact Or.inl ⟨rfl, rfl⟩
  · rw [if_neg hw]
    rcases queryAndProcess_cases device _ t acc p with ⟨h1, h2⟩ | ⟨r2, h1⟩
    · exact Or.inl ⟨h1, h2⟩
    · exact Or.inr (h1 ▸ dictSet_ne_nil _ _ _)

theorem initialLoadStep_keys (device : Device) (t : Nat)
    (acc : TickAcc) (p : Proto) (k : String)
    (h : k ∈ (initialLoadStep device t acc p).allResults.map Prod.fst) :
    k ∈ acc.allResults.map Prod.fst ∨ k = Proto.nameLower p := by
  rw [initialLoadStep_eq] at h
  by_cases hw : write_only_protocols.contains p
  · rw [if_pos hw] at h; exact Or.inl h
  · rw [if_neg hw] at h; exact queryAndProcess_keys device _ t acc p k h

theorem initialLoadStep_skip_or_store (device : Device) (t : Nat)
    (acc : TickAcc) (p : Proto) :
    (initialLoadStep device t acc p).allResults = acc.allResults
    ∨ ∃ r2, (initialLoadStep device t acc p).allResults
        = dictSet acc.allResults (Proto.nameLower p) r2 := by
  rw [initialLoadStep_eq]
  by_cases hw : write_only_protocols.contains p
  · rw [if_pos hw]; exact Or.inl rfl
  · rw [if_neg hw]
    rcases queryAndProcess_cases device _ t acc p with ⟨h1, _⟩ | ⟨r2, h1⟩
    · exact Or.inl h1
    · exact Or.inr ⟨r2, h1⟩

theorem finalizeTick_queries (c : Coord) (ar : List (String × Val))
    (q : List (List Proto)) : (finalizeTick c ar q).queries = q := rfl

theorem finalizeTick_allResults (c : Coord) (ar : List (String × Val))
    (q : List (List Proto)) : (finalizeTick c ar q).allResults = ar := rfl

theorem finalizeTick_ret (c : Coord) (ar : List (String × Val))
    (q : List (List Proto)) :
    (finalizeTick c ar q).ret = if ar.isEmpty then c.stateCache else ar := rfl

theorem finalizeTick_complete (c : Coord) (ar : List (String × Val))
    (q : List (List Proto)) :
    (finalizeTick c ar q).coord.initialLoadComplete = c.initialLoadComplete := by
  unfold finalizeTick
  by_cases hi : ar.isEmpty
  · simp [hi]
  · simp [hi]

theorem finalizeTick_times (c : Coord) (ar : List (String × Val))
    (q : List (List Proto)) :
    (finalizeTick c ar q).coord.lastUpdateTimes = c.lastUpdateTimes := by
  unfold finalizeTick
  by_cases hi : ar.isEmpty
  · simp [hi]
  · simp [hi]

theorem finalizeTick_stateCache (c : Coord) (ar : List (String × Val))
    (q : List (List Proto)) :
    (finalizeTick c ar q).coord.stateCache
      = if ar.isEmpty then c.stateCache else dictUpdate c.stateCache ar := by
  unfold finalizeTick
  by_cases hi : ar.isEmpty
  · simp [hi]
  · simp [hi]

/-- C2.  The first tick (initial load) issues exactly one single-key query
for every protocol of `all_protocols` except START/PAUSE/SHUTDOWN, in
declaration order and regardless of the device's behavior (the device is
universally quantified, so individual failures cannot change the list);
it then sets the initial-load flag; and once the flag is true, no later
tick ever resets it. -/
theorem initial_load_exactly_once_and_flag_monotone (device : Device) (t : Nat)
    (c : Coord) (h : c.initialLoadComplete = false) :
    (asyncUpdateDataT device t c).queries
      = [[Proto.state], [Proto.washing_left], [Proto.countdown], [Proto.error],
         [Proto.times_after_clean], [Proto.detergent_empty], [Proto.mode],
         [Proto.program], [Proto.temp], [Proto.rinse_times], [Proto.spin_level],
         [Proto.drying_mode], [Proto.detergent_type], [Proto.sound_set]]
    ∧ (asyncUpdateDataT device t c).coord.initialLoadComplete = true
    ∧ (∀ (device2 : Device) (t2 : Nat) (c2 : Coord), c2.initialLoadComplete = true →
        (asyncUpdateDataT device2 t2 c2).coord.initialLoadComplete = true) := by
  refine ⟨?_, ?_, ?_⟩
  · simp only [asyncUpdateDataT, h, if_pos]
    rw [finalizeTick_queries, foldl_initial_queries]
    rfl
  · simp only [asyncUpdateDataT, h, if_pos]
    rw [finalizeTick_complete]
  · intro device2 t2 c2 h2
    have hne : ¬ (c2.initialLoadComplete = false) := by
      simp [h2]
    simp only [asyncUpdateDataT, if_neg hne]
    rw [finalizeTick_complete]
    have hpres := foldl_preserves (fun a => a.coord.initialLoadComplete)
      (steadyStep device2 UPDATE_INTERVAL_INFREQUENT t2)
      (fun acc p => steadyStep_complete device2 UPDATE_INTERVAL_INFREQUENT t2 acc p)
      infrequent_protocols
    rw [hpres]
    have hpres2 := foldl_preserves (fun a => a.coord.initialLoadComplete)
      (steadyStep device2 UPDATE_INTERVAL_FREQUENT t2)
      (fun acc p => steadyStep_complete device2 UPDATE_INTERVAL_FREQUENT t2 acc p)
      frequent_protocols
    rw [hpres2]
    exact h2

/-- Witness for `initial_load_exactly_once_and_flag_monotone`: a fresh
coordinator satisfies the hypothesis, and the conclusion holds at it. -/
theorem initial_load_exactly_once_witness :
    freshCoord.initialLoadComplete = false
    ∧ (asyncUpdateDataT failingDevice 0 freshCoord).queries
      = [[Proto.state], [Proto.washing_left], [Proto.countdown], [Proto.error],
         [Proto.times_after_clean], [Proto.detergent_empty], [Proto.mode],
         [Proto.program], [Proto.temp], [Proto.rinse_times], [Proto.spin_level],
         [Proto.drying_mode], [Proto.detergent_type], [Proto.sound_set]]
    ∧ (asyncUpdateDataT failingDevice 0 freshCoord).coord.initialLoadComplete = true :=
  ⟨rfl, (initial_load_exactly_once_and_flag_monotone failingDevice 0 freshCoord rfl).1,
    (initial_load_exactly_once_and_flag_monotone failingDevice 0 freshCoord rfl).2.1⟩

theorem infrequent_names_not_frequent :
    ∀ q ∈ infrequent_protocols, ∀ p ∈ frequent_protocols,
      Proto.nameLower q ≠ Proto.nameLower p := by
  intro q hq p hp
  fin_cases hq <;> fin_cases hp <;> decide

theorem manual_not_polled :
    ∀ p ∈ manual_protocols, p ∉ frequent_protocols ∧ p ∉ infrequent_protocols := by
  intro p hp
  fin_cases hp <;> exact ⟨by decide, by decide⟩

/-- C3.  In a steady-state tick the issued queries are exactly the due
members of the Frequent tier followed by the due members of the Infrequent
tier ("due" read off the code's `not last_update or now - last_update >=
interval` test over the pre-tick timestamps); hence a protocol is queried
iff it is in one of those two tiers and due, a Manual-tier protocol is
never queried, and a protocol refreshed at `lastT` is not re-queried
while `t < lastT + interval` for its tier. -/
theorem steady_tick_query_characterization (device : Device) (t : Nat) (c : Coord)
    (h : c.initialLoadComplete = true) :
    ((asyncUpdateDataT device t c).queries
      = (frequent_protocols.filter
          (dueB UPDATE_INTERVAL_FREQUENT t c.lastUpdateTimes)).map (fun p => [p])
        ++ (infrequent_protocols.filter
          (dueB UPDATE_INTERVAL_INFREQUENT t c.lastUpdateTimes)).map (fun p => [p]))
    ∧ (∀ p : Proto, [p] ∈ (asyncUpdateDataT device t c).queries ↔
        ((p ∈ frequent_protocols
            ∧ dueB UPDATE_INTERVAL_FREQUENT t c.lastUpdateTimes p = true)
         ∨ (p ∈ infrequent_protocols
            ∧ dueB UPDATE_INTERVAL_INFREQUENT t c.lastUpdateTimes p = true)))
    ∧ (∀ p ∈ manual_protocols, [p] ∉ (asyncUpdateDataT device t c).queries)
    ∧ (∀ (p : Proto) (lastT : Nat),
        dictGet c.lastUpdateTimes (Proto.nameLower p) = Option.some lastT →
        t < lastT + UPDATE_INTERVAL_FREQUENT →
        [p] ∉ (asyncUpdateDataT device t c).queries) := by
  have hne : ¬ (c.initialLoadComplete = false) := by simp [h]
  have hmain : (asyncUpdateDataT device t c).queries
      = (frequent_protocols.filter
          (dueB UPDATE_INTERVAL_FREQUENT t c.lastUpdateTimes)).map (fun p => [p])
        ++ (infrequent_protocols.filter
          (dueB UPDATE_INTERVAL_INFREQUENT t c.lastUpdateTimes)).map (fun p => [p]) := by
    simp only [asyncUpdateDataT, if_neg hne]
    rw [finalizeTick_queries]
    rw [foldl_steady_queries device UPDATE_INTERVAL_INFREQUENT t infrequent_protocols _
      (by decide)]
    rw [foldl_steady_queries device UPDATE_INTERVAL_FREQUENT t frequent_protocols _
      (by decide)]
    have hcongr : ∀ q ∈ infrequent_protocols,
        dueB UPDATE_INTERVAL_INFREQUENT t
          (frequent_protocols.foldl (steadyStep device UPDATE_INTERVAL_FREQUENT t)
            { coord := c, allResults := [], queries := [] }).coord.lastUpdateTimes q
        = dueB UPDATE_INTERVAL_INFREQUENT t c.lastUpdateTimes q := by
      intro q hq
      apply dueB_congr
      exact foldl_times_outside (steadyStep device UPDATE_INTERVAL_FREQUENT t)
        (fun acc p k hk => steadyStep_times_ne device UPDATE_INTERVAL_FREQUENT t acc p k hk)
        frequent_protocols _ (Proto.nameLower q)
        (fun p hp => infrequent_names_not_frequent q hq p hp)
    rw [List.filter_congr hcongr]
    simp
  refine ⟨hmain, ?_, ?_, ?_⟩
  · intro p
    rw [hmain]
    simp only [List.mem_append, List.mem_map, List.mem_filter]
    constructor
    · rintro (⟨q, ⟨hqm, hqd⟩, hqe⟩ | ⟨q, ⟨hqm, hqd⟩, hqe⟩)
      · have : q = p := by simpa using hqe
        exact Or.inl ⟨this ▸ hqm, this ▸ hqd⟩
      · have : q = p := by simpa using hqe
        exact Or.inr ⟨this ▸ hqm, this ▸ hqd⟩
    · rintro (⟨hm, hd⟩ | ⟨hm, hd⟩)
      · exact Or.inl ⟨p, ⟨hm, hd⟩, rfl⟩
      · exact Or.inr ⟨p, ⟨hm, hd⟩, rfl⟩
  · intro p hp hmem
    rw [hmain] at hmem
    simp only [List.mem_append, List.mem_map, List.mem_filter] at hmem
    rcases hmem with ⟨q, ⟨hqm, _⟩, hqe⟩ | ⟨q, ⟨hqm, _⟩, hqe⟩
    · have hqp : q = p := by simpa using hqe
      exact (manual_not_polled p hp).1 (hqp ▸ hqm)
    · have hqp : q = p := by simpa using hqe
      exact (manual_not_polled p hp).2 (hqp ▸ hqm)
  · intro p lastT hget hlt hmem
    rw [hmain] at hmem
    simp only [List.mem_append, List.mem_map, List.mem_filter] at hmem
    have hdF : dueB UPDATE_INTERVAL_FREQUENT t c.lastUpdateTimes p = false := by
      unfold dueB
      rw [hget]
      simp only [decide_eq_false_iff_not]
      unfold UPDATE_INTERVAL_FREQUENT
      unfold UPDATE_INTERVAL_FREQUENT at hlt
      omega
    have hdI : dueB UPDATE_INTERVAL_INFREQUENT t c.lastUpdateTimes p = false := by
      unfold dueB
      rw [hget]
      simp only [decide_eq_false_iff_not]
      unfold UPDATE_INTERVAL_INFREQUENT
      unfold UPDATE_INTERVAL_FREQUENT at hlt
      omega
    rcases hmem with ⟨q, ⟨_, hqd⟩, hqe⟩ | ⟨q, ⟨_, hqd⟩, hqe⟩
    · have hqp : q = p := by simpa using hqe
      rw [hqp, hdF] at hqd
      exact Bool.false_ne_true hqd
    · have hqp : q = p := by simpa using hqe
      rw [hqp, hdI] at hqd
      exact Bool.false_ne_true hqd

/-- Witness for `steady_tick_query_characterization`: for a coordinator
whose `state` was refreshed at time 0, a tick at time 30 does not
re-query `state`. -/
theorem steady_tick_query_witness :
    staleCoord.initialLoadComplete = true
    ∧ [Proto.state] ∉ (asyncUpdateDataT failingDevice 30 staleCoord).queries :=
  ⟨rfl, (steady_tick_query_characterization failingDevice 30 staleCoord
      rfl).2.2.2 Proto.state 0 rfl (by decide)⟩

/-- C4.  Merging an empty result map is a no-op — `dictUpdate d {} = d`,
and a tick whose `all_results` ends up empty leaves the cache and every
last-refresh timestamp untouched and returns the existing cache contents;
the tick-wide exception fallback (`tickReturn` applied to an exception)
likewise returns the previous cache. -/
theorem empty_merge_noop_and_fallback :
    (∀ (d : List (String × Val)), dictUpdate d [] = d)
    ∧ (∀ c : Coord, tickReturn c PyResult.exn = c.stateCache)
    ∧ (∀ (device : Device) (t : Nat) (c : Coord),
        (asyncUpdateDataT device t c).allResults = [] →
          (asyncUpdateDataT device t c).coord.stateCache = c.stateCache
          ∧ (asyncUpdateDataT device t c).coord.lastUpdateTimes = c.lastUpdateTimes
          ∧ (asyncUpdateDataT device t c).ret = c.stateCache) := by
  refine ⟨fun d => rfl, fun c => rfl, ?_⟩
  intro device t c h
  by_cases h0 : c.initialLoadComplete = false
  · simp only [asyncUpdateDataT, if_pos h0] at h ⊢
    rw [finalizeTick_allResults] at h
    obtain ⟨-, hcoord⟩ := foldl_results_nil (initialLoadStep device t)
      (fun acc p => initialLoadStep_cases device t acc p) all_protocols _ h
    refine ⟨?_, ?_, ?_⟩
    · rw [finalizeTick_stateCache, h]
      simp [hcoord]
    · rw [finalizeTick_times]
      simp [hcoord]
    · rw [finalizeTick_ret, h]
      simp [hcoord]
  · simp only [asyncUpdateDataT, if_neg h0] at h ⊢
    rw [finalizeTick_allResults] at h
    obtain ⟨h1, hcoord1⟩ := foldl_results_nil
      (steadyStep device UPDATE_INTERVAL_INFREQUENT t)
      (fun acc p => steadyStep_cases device UPDATE_INTERVAL_INFREQUENT t acc p)
      infrequent_protocols _ h
    obtain ⟨-, hcoord2⟩ := foldl_results_nil
      (steadyStep device UPDATE_INTERVAL_FREQUENT t)
      (fun acc p => steadyStep_cases device UPDATE_INTERVAL_FREQUENT t acc p)
      frequent_protocols _ h1
    refine ⟨?_, ?_, ?_⟩
    · rw [finalizeTick_stateCache, h]
      simp [hcoord1, hcoord2]
    · rw [finalizeTick_times]
      simp [hcoord1, hcoord2]
    · rw [finalizeTick_ret, h]
      simp [hcoord1, hcoord2]

/-- Witness for `empty_merge_noop_and_fallback`: at time 30 nothing is due
on `idleCoord`, the tick gathers no results, and the cache, the
timestamps and the returned value are all the previous ones. -/
theorem empty_merge_noop_witness :
    (asyncUpdateDataT failingDevice 30 idleCoord).allResults = []
    ∧ (asyncUpdateDataT failingDevice 30 idleCoord).coord.stateCache
        = idleCoord.stateCache
    ∧ (asyncUpdateDataT failingDevice 30 idleCoord).ret = idleCoord.stateCache :=
  ⟨rfl, (empty_merge_noop_and_fallback.2.2 failingDevice 30 idleCoord rfl).1,
    (empty_merge_noop_and_fallback.2.2 failingDevice 30 idleCoord rfl).2.2⟩

/-- C5 amended.  During the initial load each key's successful result is
recorded immediately in the tick's local `all_results` map (or the key is
skipped), but the shared `_state_cache` is not written during the pass at
all: after any prefix of the pass it still holds exactly the pre-tick
contents, and the whole accumulated map is merged once, after the last
key. -/
theorem initial_load_merge_deferred (device : Device) (t : Nat) (c : Coord)
    (h : c.initialLoadComplete = false) :
    (∀ n : Nat, ((all_protocols.take n).foldl (initialLoadStep device t)
        { coord := { c with initialLoadStarted := true },
          allResults := [], queries := [] } : TickAcc).coord.stateCache
      = c.stateCache)
    ∧ (∀ (acc : TickAcc) (p : Proto),
        (initialLoadStep device t acc p).allResults = acc.allResults
        ∨ ∃ r2, (initialLoadStep device t acc p).allResults
            = dictSet acc.allResults (Proto.nameLower p) r2)
    ∧ ((asyncUpdateDataT device t c).coord.stateCache
        = if (asyncUpdateDataT device t c).allResults.isEmpty then c.stateCache
          else dictUpdate c.stateCache (asyncUpdateDataT device t c).allResults) := by
  refine ⟨?_, fun acc p => initialLoadStep_skip_or_store device t acc p, ?_⟩
  · intro n
    rw [foldl_preserves (fun a => a.coord.stateCache) (initialLoadStep device t)
      (fun acc p => initialLoadStep_stateCache device t acc p)]
  · simp only [asyncUpdateDataT, if_pos h]
    rw [finalizeTick_stateCache, finalizeTick_allResults]
    have hsc := foldl_preserves (fun a => a.coord.stateCache) (initialLoadStep device t)
      (fun acc p => initialLoadStep_stateCache device t acc p) all_protocols
      { coord := { c with initialLoadStarted := true }, allResults := [], queries := [] }
    have hsc2 : ((all_protocols.foldl (initialLoadStep device t)
        { coord := { c with initialLoadStarted := true },
          allResults := [], queries := [] } : TickAcc)).coord.stateCache
        = c.stateCache := by simpa using hsc
    simp [hsc2]

/-- Witness for `initial_load_merge_deferred`: a fresh coordinator has the
flag unset, and after the first step of the pass the cache is still the
pre-tick (empty) one. -/
theorem initial_load_merge_deferred_witness :
    freshCoord.initialLoadComplete = false
    ∧ ((all_protocols.take 1).foldl
        (initialLoadStep (constDevice (Val.str "3")) 0)
        { coord := { freshCoord with initialLoadStarted := true },
          allResults := [], queries := [] } : TickAcc).coord.stateCache
      = freshCoord.stateCache :=
  ⟨rfl, (initial_load_merge_deferred (constDevice (Val.str "3")) 0 freshCoord rfl).1 1⟩

/-- C7 amended.  After the (always "successful", because the wrapper is
total) remote write, `async_send_command` unconditionally requests a full
coordinator refresh; but the refresh is not best-effort: if the refresh
call raises, the exception is logged and re-raised, so the whole command
fails to its caller; only if the refresh returns does the command
succeed. -/
theorem post_write_refresh_always_requested (device : Device)
    (refreshOutcome : PyResult Unit) (name : String) (value : Val) (p : Proto)
    (h : resolveProtocol name = Option.some p) :
    (async_send_command device refreshOutcome name value).refreshRequested = true
    ∧ (refreshOutcome = PyResult.exn →
        (async_send_command device refreshOutcome name value).outcome = PyResult.exn)
    ∧ (refreshOutcome = PyResult.ok () →
        (async_send_command device refreshOutcome name value).outcome
          = PyResult.ok ()) := by
  cases hz : device.zeo with
  | none =>
    refine ⟨?_, ?_, ?_⟩
    · simp [async_send_command, h, zeoSetValueTraced, hz]
    · intro he; subst he; simp [async_send_command, h, zeoSetValueTraced, hz]
    · intro he; subst he; simp [async_send_command, h, zeoSetValueTraced, hz]
  | some z =>
    cases hs : z.setValue p value with
    | ok v =>
      refine ⟨?_, ?_, ?_⟩
      · simp [async_send_command, h, zeoSetValueTraced, hz, hs]
      · intro he; subst he; simp [async_send_command, h, zeoSetValueTraced, hz, hs]
      · intro he; subst he; simp [async_send_command, h, zeoSetValueTraced, hz, hs]
    | raise =>
      refine ⟨?_, ?_, ?_⟩
      · simp [async_send_command, h, zeoSetValueTraced, hz, hs]
      · intro he; subst he; simp [async_send_command, h, zeoSetValueTraced, hz, hs]
      · intro he; subst he; simp [async_send_command, h, zeoSetValueTraced, hz, hs]

/-- Witness for `post_write_refresh_always_requested` at a concrete
device, command and failing refresh. -/
theorem post_write_refresh_witness :
    resolveProtocol "START" = Option.some Proto.start
    ∧ (async_send_command (constDevice Val.none) PyResult.exn "START"
        (Val.int 1)).refreshRequested = true
    ∧ (async_send_command (constDevice Val.none) PyResult.exn "START"
        (Val.int 1)).outcome = PyResult.exn :=
  ⟨rfl,
    (post_write_refresh_always_requested (constDevice Val.none) PyResult.exn
      "START" (Val.int 1) Proto.start rfl).1,
    (post_write_refresh_always_requested (constDevice Val.none) PyResult.exn
      "START" (Val.int 1) Proto.start rfl).2.1 rfl⟩

/-- C8.  For each integer-coerced key (sound_set, start, pause, shutdown),
`async_set_value` forwards boolean `true` to the transport as integer `1`
and `false` as `0`, forwards the numeric string `"2"` as integer `2`, and
on the non-numeric string `"abc"` raises (Python `ValueError` from
`int()`) before any transport call: nothing is forwarded, no refresh is
requested, and the call fails.  The transport `z` and the refresh outcome
`r` are arbitrary. -/
theorem integer_coercion_set_value :
    ∀ (z : DeviceZeo) (r : PyResult Unit),
      ((entitySetValue { zeo := Option.some z } r "SOUND_SET"
          (Val.bool true)).forwardedWrite = Option.some (Proto.sound_set, Val.int 1))
      ∧ ((entitySetValue { zeo := Option.some z } r "SOUND_SET"
          (Val.bool false)).forwardedWrite = Option.some (Proto.sound_set, Val.int 0))
      ∧ ((entitySetValue { zeo := Option.some z } r "SOUND_SET"
          (Val.str "2")).forwardedWrite = Option.some (Proto.sound_set, Val.int 2))
      ∧ ((entitySetValue { zeo := Option.some z } r "SOUND_SET"
          (Val.str "abc")).forwardedWrite = Option.none
        ∧ (entitySetValue { zeo := Option.some z } r "SOUND_SET"
          (Val.str "abc")).refreshRequested = false
        ∧ (entitySetValue { zeo := Option.some z } r "SOUND_SET"
          (Val.str "abc")).outcome = PyResult.exn)
      ∧ ((entitySetValue { zeo := Option.some z } r "START"
          (Val.bool true)).forwardedWrite = Option.some (Proto.start, Val.int 1))
      ∧ ((entitySetValue { zeo := Option.some z } r "START"
          (Val.bool false)).forwardedWrite = Option.some (Proto.start, Val.int 0))
      ∧ ((entitySetValue { zeo := Option.some z } r "START"
          (Val.str "2")).forwardedWrite = Option.some (Proto.start, Val.int 2))
      ∧ ((entitySetValue { zeo := Option.some z } r "START"
          (Val.str "abc")).forwardedWrite = Option.none
        ∧ (entitySetValue { zeo := Option.some z } r "START"
          (Val.str "abc")).outcome = PyResult.exn)
      ∧ ((entitySetValue { zeo := Option.some z } r "PAUSE"
          (Val.bool true)).forwardedWrite = Option.some (Proto.pause, Val.int 1))
      ∧ ((entitySetValue { zeo := Option.some z } r "PAUSE"
          (Val.bool false)).forwardedWrite = Option.some (Proto.pause, Val.int 0))
      ∧ ((entitySetValue { zeo := Option.some z } r "PAUSE"
          (Val.str "2")).forwardedWrite = Option.some (Proto.pause, Val.int 2))
      ∧ ((entitySetValue { zeo := Option.some z } r "PAUSE"
          (Val.str "abc")).forwardedWrite = Option.none
        ∧ (entitySetValue { zeo := Option.some z } r "PAUSE"
          (Val.str "abc")).outcome = PyResult.exn)
      ∧ ((entitySetValue { zeo := Option.some z } r "SHUTDOWN"
          (Val.bool true)).forwardedWrite = Option.some (Proto.shutdown, Val.int 1))
      ∧ ((entitySetValue { zeo := Option.some z } r "SHUTDOWN"
          (Val.bool false)).forwardedWrite = Option.some (Proto.shutdown, Val.int 0))
      ∧ ((entitySetValue { zeo := Option.some z } r "SHUTDOWN"
          (Val.str "2")).forwardedWrite = Option.some (Proto.shutdown, Val.int 2))
      ∧ ((entitySetValue { zeo := Option.some z } r "SHUTDOWN"
          (Val.str "abc")).forwardedWrite = Option.none
        ∧ (entitySetValue { zeo := Option.some z } r "SHUTDOWN"
          (Val.str "abc")).outcome = PyResult.exn) :=
  fun _ _ =>
    ⟨rfl, rfl, rfl, ⟨rfl, rfl, rfl⟩, rfl, rfl, rfl, ⟨rfl, rfl⟩,
     rfl, rfl, rfl, ⟨rfl, rfl⟩, rfl, rfl, rfl, ⟨rfl, rfl⟩⟩

theorem asyncUpdateDataT_initial (device : Device) (t : Nat) (c : Coord)
    (h : c.initialLoadComplete = false) :
    asyncUpdateDataT device t c
      = finalizeTick
          { (all_protocols.foldl (initialLoadStep device t)
              { coord := { c with initialLoadStarted := true },
                allResults := [], queries := [] } : TickAcc).coord
            with initialLoadComplete := true }
          ((all_protocols.foldl (initialLoadStep device t)
              { coord := { c with initialLoadStarted := true },
                allResults := [], queries := [] } : TickAcc)).allResults
          ((all_protocols.foldl (initialLoadStep device t)
              { coord := { c with initialLoadStarted := true },
                allResults := [], queries := [] } : TickAcc)).queries := by
  unfold asyncUpdateDataT
  rw [if_pos h]

theorem asyncUpdateDataT_steady (device : Device) (t : Nat) (c : Coord)
    (h : ¬ (c.initialLoadComplete = false)) :
    asyncUpdateDataT device t c
      = finalizeTick
          ((infrequent_protocols.foldl
              (steadyStep device UPDATE_INTERVAL_INFREQUENT t)
              (frequent_protocols.foldl (steadyStep device UPDATE_INTERVAL_FREQUENT t)
                { coord := c, allResults := [], queries := [] }) : TickAcc)).coord
          ((infrequent_protocols.foldl
              (steadyStep device UPDATE_INTERVAL_INFREQUENT t)
              (frequent_protocols.foldl (steadyStep device UPDATE_INTERVAL_FREQUENT t)
                { coord := c, allResults := [], queries := [] }) : TickAcc)).allResults
          ((infrequent_protocols.foldl
              (steadyStep device UPDATE_INTERVAL_INFREQUENT t)
              (frequent_protocols.foldl (steadyStep device UPDATE_INTERVAL_FREQUENT t)
                { coord := c, allResults := [], queries := [] }) : TickAcc)).queries := by
  unfold asyncUpdateDataT
  rw [if_neg h]

theorem frequent_subset_all : ∀ p ∈ frequent_protocols, p ∈ all_protocols := by
  intro p hp
  fin_cases hp <;> decide

theorem infrequent_subset_all : ∀ p ∈ infrequent_protocols, p ∈ all_protocols := by
  intro p hp
  fin_cases hp <;> decide

/-- C9 amended.  The scheduler-tick merges only ever add cache keys of the
form `protocol.name.lower()` — all of which are lowercase strings — so a
tick preserves an all-lowercase cache; but `async_query_protocol` stores
its entry under the caller-supplied key verbatim (coordinator.py
line 353), so the all-lowercase invariant (and hence visibility through
`get_cached_value`, which lowercases its argument) holds only when its
callers pass a lowercase name, as every in-repository caller does. -/
theorem cache_key_casing_characterization :
    (∀ (device : Device) (t : Nat) (c : Coord) (k : String),
       k ∈ ((asyncUpdateDataT device t c).coord.stateCache.map Prod.fst) →
       k ∈ (c.stateCache.map Prod.fst) ∨ k ∈ all_protocols.map Proto.nameLower)
    ∧ (∀ k ∈ all_protocols.map Proto.nameLower, strToLower k = k)
    ∧ (∀ (device : Device) (now : Nat) (c : Coord) (name : String)
         (c2 : Coord) (v : Val),
        async_query_protocol device now c name = PyResult.ok (c2, v) →
        c2.stateCache = dictSet c.stateCache name v) := by
  refine ⟨?_, by decide, ?_⟩
  · intro device t c k hk
    by_cases h0 : c.initialLoadComplete = false
    · rw [asyncUpdateDataT_initial device t c h0, finalizeTick_stateCache] at hk
      have hsc : ((all_protocols.foldl (initialLoadStep device t)
          { coord := { c with initialLoadStarted := true },
            allResults := [], queries := [] } : TickAcc)).coord.stateCache
          = c.stateCache := by
        simpa using foldl_preserves (fun a => a.coord.stateCache)
          (initialLoadStep device t)
          (fun acc p => initialLoadStep_stateCache device t acc p) all_protocols
          { coord := { c with initialLoadStarted := true },
            allResults := [], queries := [] }
      by_cases hi : ((all_protocols.foldl (initialLoadStep device t)
          { coord := { c with initialLoadStarted := true },
            allResults := [], queries := [] } : TickAcc)).allResults.isEmpty = true
      · rw [if_pos hi] at hk
        left
        simp only [hsc] at hk
        simpa using hk
      · rw [if_neg hi] at hk
        have hk2 : k ∈ (dictUpdate c.stateCache
            ((all_protocols.foldl (initialLoadStep device t)
              { coord := { c with initialLoadStarted := true },
                allResults := [], queries := [] } : TickAcc)).allResults).map
              Prod.fst := by
          simp only [hsc] at hk
          simpa using hk
        rcases mem_keys_dictUpdate _ _ _ hk2 with h2 | h2
        · exact Or.inl h2
        · rcases foldl_results_keys (initialLoadStep device t)
            (fun acc p k2 hh => initialLoadStep_keys device t acc p k2 hh)
            all_protocols _ k h2 with h3 | ⟨p, hp, hpe⟩
          · simp at h3
          · exact Or.inr (hpe ▸ List.mem_map_of_mem Proto.nameLower hp)
    · rw [asyncUpdateDataT_steady device t c h0, finalizeTick_stateCache] at hk
      have hsc : ((infrequent_protocols.foldl
          (steadyStep device UPDATE_INTERVAL_INFREQUENT t)
          (frequent_protocols.foldl (steadyStep device UPDATE_INTERVAL_FREQUENT t)
            { coord := c, allResults := [], queries := [] }) : TickAcc)).coord.stateCache
          = c.stateCache := by
        rw [foldl_preserves (fun a => a.coord.stateCache)
          (steadyStep device UPDATE_INTERVAL_INFREQUENT t)
          (fun acc p => steadyStep_stateCache device UPDATE_INTERVAL_INFREQUENT t acc p)]
        rw [foldl_preserves (fun a => a.coord.stateCache)
          (steadyStep device UPDATE_INTERVAL_FREQUENT t)
          (fun acc p => steadyStep_stateCache device UPDATE_INTERVAL_FREQUENT t acc p)]
      by_cases hi : ((infrequent_protocols.foldl
          (steadyStep device UPDATE_INTERVAL_INFREQUENT t)
          (frequent_protocols.foldl (steadyStep device UPDATE_INTERVAL_FREQUENT t)
            { coord := c, allResults := [], queries := [] }) : TickAcc)).allResults.isEmpty
          = true
      · rw [if_pos hi] at hk
        rw [hsc] at hk
        exact Or.inl hk
      · rw [if_neg hi] at hk
        rw [hsc] at hk
        rcases mem_keys_dictUpdate _ _ _ hk with h2 | h2
        · exact Or.inl h2
        · rcases foldl_results_keys (steadyStep device UPDATE_INTERVAL_INFREQUENT t)
            (fun acc p k2 hh =>
              steadyStep_keys device UPDATE_INTERVAL_INFREQUENT t acc p k2 hh)
            infrequent_protocols _ k h2 with h3 | ⟨p, hp, hpe⟩
          · rcases foldl_results_keys (steadyStep device UPDATE_INTERVAL_FREQUENT t)
              (fun acc p k2 hh =>
                steadyStep_keys device UPDATE_INTERVAL_FREQUENT t acc p k2 hh)
              frequent_protocols _ k h3 with h4 | ⟨p, hp, hpe⟩
            · simp at h4
            · exact Or.inr
                (hpe ▸ List.mem_map_of_mem Proto.nameLower (frequent_subset_all p hp))
          · exact Or.inr
              (hpe ▸ List.mem_map_of_mem Proto.nameLower (infrequent_subset_all p hp))
  · intro device now c name c2 v h
    cases h1 : resolveProtocol (strToUpper name) with
    | none => simp [async_query_protocol, h1] at h
    | some p =>
      cases h2 : zeoQueryValues device [p] with
      | exn => simp [async_query_protocol, h1, h2] at h
      | ok result =>
        cases h3 : normalizeAndConvertByName name p result with
        | exn => simp [async_query_protocol, h1, h2, h3] at h
        | ok r2 =>
          simp only [async_query_protocol, h1, h2, h3, PyResult.ok.injEq,
            Prod.mk.injEq] at h
          obtain ⟨hc2, hv⟩ := h
          rw [← hc2, ← hv]

/-- Witness for `cache_key_casing_characterization`: a lowercase-named
on-demand query stores under that lowercase key. -/
theorem cache_key_casing_witness :
    ({ stateCache := [("state", Val.str "run")], lastUpdateTimes := [("state", 5)],
       initialLoadComplete := true, initialLoadStarted := true } : Coord).stateCache
      = dictSet staleCoord.stateCache "state" (Val.str "run") :=
  cache_key_casing_characterization.2.2 (constDevice (Val.str "run")) 5 staleCoord
    "state" _ (Val.str "run") rfl
